import Mathlib

/-!
Verification of the Mod Acquisition Pipeline (app_src/mod_launcher.py and
app_src/main.py) against its design specification.

The Python code is shallowly embedded: HTML pages are represented by their
document-ordered anchor lists and their visible text, URL joining
(urllib.parse.urljoin) is an explicit function parameter, the MD5 digest
function (hashlib.md5, an external library) is an explicit function
parameter, and filesystem effects are represented either by explicit state
records or by event traces.  Python str primitives used by the code
(str.strip, str.lower, str.endswith, str.split, str.rstrip) and the pathlib
suffix/parent/join operations are re-implemented over character lists so
that every definition evaluates by kernel reduction; they model the CPython
semantics for the ASCII inputs the pipeline handles.
-/

/-- Python str.lower for a single ASCII character (chr values outside A-Z are
kept unchanged, matching CPython on ASCII input). -/
def charLower (c : Char) : Char :=
  if decide ('A' ≤ c) && decide (c ≤ 'Z') then Char.ofNat (c.toNat + 32) else c

/-- Python str.lower, modelled on ASCII strings. -/
def strLower (s : String) : String := String.mk (s.toList.map charLower)

/-- Python str.endswith on character lists. -/
def listEndsWith (l pat : List Char) : Bool := pat.reverse.isPrefixOf l.reverse

/-- Python str.endswith. -/
def strEndsWith (s pat : String) : Bool := listEndsWith s.toList pat.toList

/-- Python substring containment (the `in` operator) on character lists. -/
def listContains (l pat : List Char) : Bool :=
  pat.isPrefixOf l ||
    match l with
    | [] => false
    | _ :: t => listContains t pat

/-- Python substring containment: pat in s. -/
def strContains (s pat : String) : Bool := listContains s.toList pat.toList

/-- Python str.split with an explicit one-character separator. -/
def splitOnChar (sep : Char) : List Char → List (List Char)
  | [] => [[]]
  | c :: cs =>
    let r := splitOnChar sep cs
    if c == sep then [] :: r
    else
      match r with
      | [] => [[c]]
      | s :: ss => (c :: s) :: ss

/-- The whitespace class of the Python re module (backslash-s) on ASCII text:
space, tab, newline, carriage return, vertical tab, form feed. -/
def isPySpace (c : Char) : Bool :=
  c == ' ' || c == '\t' || c == '\n' || c == '\r' || c == '\x0b' || c == '\x0c'

/-- Membership in the regex character class of lowercase/uppercase hex digits. -/
def isHexChar (c : Char) : Bool :=
  (decide ('0' ≤ c) && decide (c ≤ '9')) ||
  (decide ('a' ≤ c) && decide (c ≤ 'f')) ||
  (decide ('A' ≤ c) && decide (c ≤ 'F'))

/-- Python str.strip on character lists (whitespace from both ends). -/
def trimChars (l : List Char) : List Char :=
  ((l.dropWhile isPySpace).reverse.dropWhile isPySpace).reverse

/-- Python str.strip. -/
def strTrim (s : String) : String := String.mk (trimChars s.toList)

/-- Python str.rstrip with a slash argument, as used by the downloads-page
fallback in mod_launcher.py line 34. -/
def rstripSlash (s : String) : String :=
  String.mk (s.toList.reverse.dropWhile (fun c => c == '/')).reverse

/-- Index of the last occurrence of a character in a list. -/
def lastIdxOf (c : Char) : List Char → Option Nat
  | [] => none
  | x :: xs =>
    match lastIdxOf c xs with
    | some i => some (i + 1)
    | none => if x == c then some 0 else none

/-- Position where pathlib splits a file name from its suffix: the last dot,
provided it is neither the leading character nor the trailing character
(PurePath.suffix returns the empty suffix otherwise). -/
def dotSplitIdx (l : List Char) : Option Nat :=
  match lastIdxOf '.' l with
  | some i => if decide (0 < i) && decide (i + 1 < l.length) then some i else none
  | none => none

/-- pathlib PurePath.suffix on a file name. -/
def nameSuffix (n : String) : String :=
  match dotSplitIdx n.toList with
  | some i => String.mk (n.toList.drop i)
  | none => ""

/-- pathlib PurePath.with_suffix on a file name: replaces the existing suffix
(if any) with the given one. -/
def nameWithSuffix (n suf : String) : String :=
  match dotSplitIdx n.toList with
  | some i => String.mk (n.toList.take i) ++ suf
  | none => n ++ suf

/-- The temporary sibling file used by both downloaders
(mod_launcher.py line 93 and main.py line 62):
out_path.with_suffix(out_path.suffix + ".part"). -/
def tmpName (out : String) : String := nameWithSuffix out (nameSuffix out ++ ".part")

/-- pathlib PurePath.name: the last slash-separated component, modelled for
paths without a trailing slash. -/
def lastComponent (p : String) : String :=
  String.mk ((splitOnChar '/' p.toList).getLastD p.toList)

/-- pathlib PurePath.suffix of a path. -/
def pathSuffix (p : String) : String := nameSuffix (lastComponent p)

/-- pathlib PurePath.parent, modelled for relative and plain absolute paths:
drops the last component; a single-component path has parent dot. -/
def pathParent (p : String) : String :=
  match splitOnChar '/' p.toList with
  | [] => "."
  | [_] => "."
  | segs => String.mk (List.intercalate "/".toList segs.dropLast)

/-- pathlib path join (the slash operator), modelled for the shapes the
pipeline produces; joining onto dot gives the bare name, as in CPython. -/
def joinPath (d f : String) : String :=
  if d = "." then f else if strEndsWith d "/" then d ++ f else d ++ "/" ++ f

/-- Stable insertion used to model the stable Python list.sort: an element is
placed before the first resident that does not compare strictly below it, so
equal-key elements keep their original relative order. -/
def insertStable (le : α → α → Bool) (a : α) : List α → List α
  | [] => [a]
  | b :: bs => if le a b then a :: b :: bs else b :: insertStable le a bs

/-- The Python list.sort(key=...): a stable sort by a boolean order.  Any two
stable sorts of the same total preorder agree, so insertion sort is a
faithful model of the CPython timsort. -/
def pySortBy (le : α → α → Bool) : List α → List α
  | [] => []
  | x :: xs => insertStable le x (pySortBy le xs)

/-- Comparison by string length, the key=len sort of mod_launcher.py line 32. -/
def lenLe (a b : String) : Bool := decide (a.length ≤ b.length)

/-- Lexicographic comparison of the (tier, length) rank pairs used by both
candidate selectors. -/
def keyLe (a b : Nat × Nat) : Bool :=
  decide (a.1 < b.1) || (decide (a.1 = b.1) && decide (a.2 ≤ b.2))

/-- The seen-set deduplication loop of newest_filepage
(mod_launcher.py lines 47-51): keep the first occurrence of each element. -/
def dedupFirstAux (seen : List String) : List String → List String
  | [] => []
  | x :: xs =>
    if seen.contains x then dedupFirstAux seen xs
    else x :: dedupFirstAux (x :: seen) xs

/-- Order-preserving duplicate removal, first occurrence kept. -/
def dedupFirst (l : List String) : List String := dedupFirstAux [] l

/-- Decidable equality for Except results, used to evaluate the pipeline on
concrete inputs. -/
instance {e a : Type} [DecidableEq e] [DecidableEq a] : DecidableEq (Except e a) :=
  fun x y =>
    match x, y with
    | Except.error u, Except.error v =>
      if h : u = v then Decidable.isTrue (by rw [h])
      else Decidable.isFalse (by intro hh; cases hh; exact h rfl)
    | Except.error _, Except.ok _ => Decidable.isFalse (by intro hh; cases hh)
    | Except.ok _, Except.error _ => Decidable.isFalse (by intro hh; cases hh)
    | Except.ok u, Except.ok v =>
      if h : u = v then Decidable.isTrue (by rw [h])
      else Decidable.isFalse (by intro hh; cases hh; exact h rfl)

/-- A raised Python exception: its class name and its message. -/
structure PyError where
  cls : String
  msg : String
deriving DecidableEq

/-- The exception raised at mod_launcher.py line 46 when the downloads page
lists no file entries. -/
def noFilesFoundRaised : PyError :=
  ⟨"RuntimeError", "No file entries found on the Downloads page."⟩

/-- The exception raised at mod_launcher.py line 76 when a file page carries
no /downloads/start/ link. -/
def noStartLinkRaised : PyError :=
  ⟨"RuntimeError", "Could not find /downloads/start/<id> on the file page."⟩

/-- The exception raised at mod_launcher.py line 107 on a checksum mismatch
after a download. -/
def md5MismatchRaised : PyError :=
  ⟨"RuntimeError", "MD5 mismatch after download."⟩

/-- An HTML anchor as BeautifulSoup delivers it: the raw href attribute and
the visible text of the anchor, in document order. -/
structure Anchor where
  href : String
  text : String
deriving DecidableEq

/-- The downloads-page candidate test of find_downloads_page
(mod_launcher.py lines 23-30): the joined URL contains /mods/ and /downloads,
or the stripped lowercased anchor text is downloads or files while the joined
URL contains /mods/. -/
def downloadsCandidate (urljoin : String → String → String) (mod_root_url : String)
    (a : Anchor) : Option String :=
  let href := strTrim a.href
  let text := strLower (strTrim a.text)
  let absurl := urljoin mod_root_url href
  if strContains absurl "/mods/" && strContains absurl "/downloads" then some absurl
  else if (decide (text = "downloads") || decide (text = "files")) &&
      strContains absurl "/mods/" then some absurl
  else none

/-- find_downloads_page (mod_launcher.py lines 19-34): collects candidate
anchors in document order, sorts them by URL length (stable Python sort)
and returns the first, falling back to the rstripped root plus /downloads
when nothing matched. -/
def find_downloads_page (urljoin : String → String → String) (mod_root_url : String)
    (anchors : List Anchor) : String :=
  let candidates := anchors.filterMap (downloadsCandidate urljoin mod_root_url)
  match pySortBy lenLe candidates with
  | [] => rstripSlash mod_root_url ++ "/downloads"
  | c :: _ => c

/-- The structural file-page test of newest_filepage (mod_launcher.py
line 43): re.search of slash mods slash nonempty slash downloads slash
nonempty with an optional trailing slash at the end of the URL, expressed on
the slash-separated segments (the two nonempty groups cannot contain a
slash, so the match is necessarily aligned on the last segments). -/
def fileLinkMatch (href : String) : Bool :=
  let segs := splitOnChar '/' href.toList
  let segs1 := if segs.getLast? == some [] then segs.dropLast else segs
  match segs1.reverse with
  | y :: d :: x :: m :: _ :: _ =>
      !y.isEmpty && !x.isEmpty && d == "downloads".toList && m == "mods".toList
  | _ => false

/-- The file-link filter of newest_filepage (mod_launcher.py lines 41-44):
the joined href matches the structural pattern and does not contain the
substring upload. -/
def newestCandidate (urljoin : String → String → String) (downloads_url : String)
    (a : Anchor) : Option String :=
  let href := urljoin downloads_url a.href
  if fileLinkMatch href && !strContains href "upload" then some href else none

/-- newest_filepage (mod_launcher.py lines 37-52): collects matching links in
document order, raises when none were found, deduplicates preserving
first-seen order and returns the topmost entry. -/
def newest_filepage (urljoin : String → String → String) (downloads_url : String)
    (anchors : List Anchor) : Except PyError String :=
  let file_links := anchors.filterMap (newestCandidate urljoin downloads_url)
  match file_links with
  | [] => Except.error noFilesFoundRaised
  | x :: xs => Except.ok ((dedupFirst (x :: xs)).headD x)

/-- One attempt of the regex MD5 Hash, whitespace, 32 hex digits at a fixed
position: the literal label must start here, greedy whitespace skipping
followed by exactly 32 hex characters (re.search semantics; backtracking
into the whitespace cannot help because a whitespace character is not a hex
digit). -/
def tryMd5At (l : List Char) : Option (List Char) :=
  if "MD5 Hash".toList.isPrefixOf l then
    let dig := ((l.drop 8).dropWhile isPySpace).take 32
    if dig.length == 32 && dig.all isHexChar then some dig else none
  else none

/-- Leftmost match of the MD5 pattern (re.search at mod_launcher.py line 62). -/
def scanMd5 : List Char → Option (List Char)
  | [] => none
  | c :: cs =>
    match tryMd5At (c :: cs) with
    | some d => some d
    | none => scanMd5 cs

/-- One attempt of the regex Filename, whitespace, nonempty non-whitespace
token at a fixed position (re.search semantics; at least one whitespace
character must follow the label and the captured token is the maximal
non-whitespace run). -/
def tryFilenameAt (l : List Char) : Option (List Char) :=
  if "Filename".toList.isPrefixOf l then
    let rest := l.drop 8
    if (rest.takeWhile isPySpace).isEmpty then none
    else
      let tok := (rest.dropWhile isPySpace).takeWhile (fun c => !isPySpace c)
      if tok.isEmpty then none else some tok
  else none

/-- Leftmost match of the Filename pattern (re.search at mod_launcher.py
line 66). -/
def scanFilename : List Char → Option (List Char)
  | [] => none
  | c :: cs =>
    match tryFilenameAt (c :: cs) with
    | some t => some t
    | none => scanFilename cs

/-- Result triple of parse_filepage_for_md5_and_start: the start URL, the
published MD5 (lowercased) if any, and the suggested file name if any. -/
structure FilePageResult where
  start_url : String
  md5 : Option String
  suggested : Option String
deriving DecidableEq

/-- The start-link loop of parse_filepage_for_md5_and_start (mod_launcher.py
lines 70-74): the first anchor in document order whose joined href contains
/downloads/start/. -/
def findStart (urljoin : String → String → String) (filepage_url : String) :
    List Anchor → Option String
  | [] => none
  | a :: rest =>
    let href := urljoin filepage_url a.href
    if strContains href "/downloads/start/" then some href
    else findStart urljoin filepage_url rest

/-- parse_filepage_for_md5_and_start (mod_launcher.py lines 55-77), taking
the visible text of the page (soup.get_text) and its anchors: extracts the
optional MD5 digest (lowercased) and optional suggested filename by leftmost
regex match, and raises when no start link exists. -/
def parse_filepage_for_md5_and_start (urljoin : String → String → String)
    (filepage_url : String) (text : String) (anchors : List Anchor) :
    Except PyError FilePageResult :=
  let md5 := (scanMd5 text.toList).map (fun d => strLower (String.mk d))
  let suggested := (scanFilename text.toList).map String.mk
  match findStart urljoin filepage_url anchors with
  | none => Except.error noStartLinkRaised
  | some s => Except.ok ⟨s, md5, suggested⟩

/-- The checksum verification of download_with_optional_md5 (mod_launcher.py
lines 101-107), with the MD5 digest function (hashlib) as a parameter:
nothing is checked when no digest was published, otherwise the lowercased
computed digest must equal the lowercased published one. -/
def verify_md5 (hash : List Nat → String) (md5 : Option String) (data : List Nat) :
    Option PyError :=
  match md5 with
  | none => none
  | some d => if strLower (hash data) = strLower d then none else some md5MismatchRaised

/-- A filesystem event performed by a downloader. -/
inductive FsEvent where
  | mkdirParent
  | writeChunk (path : String) (chunk : List Nat)
  | rename (src : String) (dst : String)
deriving DecidableEq

/-- The filesystem trace of the streaming downloaders (mod_launcher.py
lines 92-100 and main.py lines 61-74): create the parent directory, write
every nonempty response chunk to the temporary sibling file, and finally
rename the temporary file onto the destination. -/
def download_with_optional_md5_events (out : String) (chunks : List (List Nat)) :
    List FsEvent :=
  FsEvent.mkdirParent ::
    ((chunks.filter (fun c => !c.isEmpty)).map (fun c => FsEvent.writeChunk (tmpName out) c)
      ++ [FsEvent.rename (tmpName out) out])

/-- Whether an event makes the given path appear or change. -/
def touchesPath (p : String) : FsEvent → Bool
  | FsEvent.mkdirParent => false
  | FsEvent.writeChunk q _ => q == p
  | FsEvent.rename _ dst => dst == p

/-- The downloader-visible filesystem state: the content of the payload file
at its resolved local path, if the file exists. -/
structure FetchState where
  localFile : Option (List Nat)
deriving DecidableEq

/-- Outcome of one conditional-download run: the final file state, how many
network downloads were performed, and the raised exception if any. -/
structure FetchOutcome where
  finalState : FetchState
  downloads : Nat
  error : Option PyError
deriving DecidableEq

/-- The conditional download step of ensure_mod_payload (mod_launcher.py
lines 154-165 composed with download_with_optional_md5): decide whether the
existing local file can be kept, otherwise download the remote content (the
rename happens before verification, so the downloaded bytes are on disk even
when verification raises). -/
def ensure_mod_payload_fetch (hash : List Nat → String) (remote : List Nat)
    (md5 : Option String) (force_redownload : Bool) (st : FetchState) : FetchOutcome :=
  let need :=
    match md5, st.localFile with
    | some d, some c =>
      if force_redownload then true
      else decide (¬ strLower (hash c) = strLower d)
    | _, _ => force_redownload || !st.localFile.isSome
  if need then
    match verify_md5 hash md5 remote with
    | some e => ⟨⟨some remote⟩, 1, some e⟩
    | none => ⟨⟨some remote⟩, 1, none⟩
  else ⟨st, 0, none⟩

/-- The fixed payload extension preference list of
maybe_extract_and_pick_payload (mod_launcher.py line 113). -/
def preferred_exts : List String := [".pk3", ".pk7", ".wad"]

/-- The sort key of maybe_extract_and_pick_payload (mod_launcher.py
lines 123-128): the index of the first preferred extension the lowercased
name ends with, else tier 99, paired with the length of the lowercased name. -/
def member_sort_key (n : String) : Nat × Nat :=
  let nlow := strLower n
  match preferred_exts.findIdx? (fun ext => strEndsWith nlow ext) with
  | some i => (i, nlow.length)
  | none => (99, nlow.length)

/-- The candidate computation of maybe_extract_and_pick_payload
(mod_launcher.py lines 115-118): the non-directory entries whose lowercased
name ends with a preferred extension. -/
def zip_payload_candidates (entries : List String) : List String :=
  (entries.filter (fun m => !strEndsWith m "/")).filter
    (fun m => preferred_exts.any (fun ext => strEndsWith (strLower m) ext))

/-- What the archive unpacker did to the filesystem. -/
inductive ExtractAction where
  | keepAsIs
  | extractAll
  | extractOne (entry : String)
deriving DecidableEq

/-- Result of the archive unpacker: its action and the returned path. -/
structure ExtractResult where
  action : ExtractAction
  returned : String
deriving DecidableEq

/-- maybe_extract_and_pick_payload (mod_launcher.py lines 110-133), taking
the entry list of the archive (zipfile namelist): a non-zip path is returned
unchanged; with no candidate among the non-directory entries the whole
archive is extracted and the archive path returned; otherwise the best
candidate by (extension tier, name length) under the stable Python sort is
extracted and its path under the directory of the archive returned (resolve is
modelled as the identity). -/
def maybe_extract_and_pick_payload (archive_path : String) (entries : List String) :
    ExtractResult :=
  if ¬ strLower (pathSuffix archive_path) = ".zip" then
    ⟨ExtractAction.keepAsIs, archive_path⟩
  else
    match pySortBy (fun a b => keyLe (member_sort_key a) (member_sort_key b))
        (zip_payload_candidates entries) with
    | [] => ⟨ExtractAction.extractAll, archive_path⟩
    | pick :: _ => ⟨ExtractAction.extractOne pick, joinPath (pathParent archive_path) pick⟩

/-- The WAD scoring function of main.py lines 153-163, on the file name:
exact lowercased tiers doom2.wad, freedoom2.wad, freedoom1.wad, freedm.wad,
then everything else, each paired with the length of the lowercased name. -/
def _score_wad_name (n : String) : Nat × Nat :=
  let nl := strLower n
  if nl = "doom2.wad" then (0, nl.length)
  else if nl = "freedoom2.wad" then (1, nl.length)
  else if nl = "freedoom1.wad" then (2, nl.length)
  else if nl = "freedm.wad" then (3, nl.length)
  else (9, nl.length)

/-- _pick_best_local_wad (main.py lines 166-171) on the globbed name list:
none when empty, else the minimum of the stable sort by the WAD score. -/
def _pick_best_local_wad (cands : List String) : Option String :=
  match pySortBy (fun a b => keyLe (_score_wad_name a) (_score_wad_name b)) cands with
  | [] => none
  | x :: _ => some x

/-- The keyword parameters accepted by the signature of ensure_mod_payload
(mod_launcher.py lines 136-141). -/
def ensure_mod_payload_params : List String :=
  ["mod_root_url", "mods_dir", "force_redownload", "session"]

/-- The keyword arguments setup_all passes to ensure_mod_payload
(main.py lines 547-553 and 556-562). -/
def setup_all_call_kwargs : List String := ["force_redownload", "session", "progress"]

/-- Result of a Python call through keyword-argument binding. -/
inductive CallResult (α : Type) where
  | typeError
  | ran (a : α)
deriving DecidableEq

/-- Python call semantics for a function without a double-star parameter:
if any keyword argument is not among the accepted parameter names the call
raises TypeError during binding, before the body performs any work; only
otherwise does the body run. -/
def pyCallKw (params kwargs : List String) (body : Unit → α) : CallResult α :=
  if kwargs.all (fun k => params.contains k) then CallResult.ran (body ())
  else CallResult.typeError

/-- The inputs that steer the mod-payload step of setup_all (main.py
lines 534-563): the skip flag, whether the mods directory exists, and the
sorted local candidate list. -/
structure ModStepArgs where
  skip_mod_update : Bool
  mods_dir_exists : Bool
  local_candidates : List String
deriving DecidableEq

/-- Outcome of the mod-payload step of setup_all. -/
inductive ModStepResult (α : Type) where
  | usedLocal (name : String)
  | typeError
  | payload (a : α)
deriving DecidableEq

/-- The mod-payload step of setup_all (main.py lines 534-563): with the skip flag
set and an existing local candidate the first candidate is used directly;
every other path calls ensure_mod_payload with the keyword arguments of
setup_all_call_kwargs (including progress). -/
def setup_all_mod_step (args : ModStepArgs) (ensure_body : Unit → α) : ModStepResult α :=
  if args.skip_mod_update && args.mods_dir_exists then
    match args.local_candidates with
    | c :: _ => ModStepResult.usedLocal c
    | [] =>
      match pyCallKw ensure_mod_payload_params setup_all_call_kwargs ensure_body with
      | CallResult.typeError => ModStepResult.typeError
      | CallResult.ran a => ModStepResult.payload a
  else
    match pyCallKw ensure_mod_payload_params setup_all_call_kwargs ensure_body with
    | CallResult.typeError => ModStepResult.typeError
    | CallResult.ran a => ModStepResult.payload a

theorem mk_append (a b : List Char) : String.mk a ++ String.mk b = String.mk (a ++ b) := rfl

theorem tmpName_eq (out : String) : tmpName out = out ++ ".part" := by
  unfold tmpName nameWithSuffix nameSuffix
  cases out with
  | mk d =>
    cases h : dotSplitIdx (String.mk d).toList with
    | none => simp
    | some i =>
      simp only
      show String.mk (d.take i) ++ (String.mk (d.drop i) ++ String.mk ".part".data)
          = String.mk d ++ String.mk ".part".data
      rw [mk_append, mk_append, mk_append]
      exact congrArg String.mk (by rw [← List.append_assoc, List.take_append_drop])

theorem insertStable_perm (le : α → α → Bool) (a : α) (l : List α) :
    (insertStable le a l).Perm (a :: l) := by
  induction l with
  | nil => simp [insertStable]
  | cons b bs ih =>
    simp only [insertStable]
    split
    · exact List.Perm.refl _
    · exact (ih.cons b).trans (List.Perm.swap a b bs)

theorem pySortBy_perm (le : α → α → Bool) (l : List α) : (pySortBy le l).Perm l := by
  induction l with
  | nil => simp [pySortBy]
  | cons x xs ih => exact (insertStable_perm le x (pySortBy le xs)).trans (ih.cons x)

theorem insertStable_pairwise (le : α → α → Bool)
    (htr : ∀ a b c, le a b = true → le b c = true → le a c = true)
    (hto : ∀ a b, le a b = true ∨ le b a = true)
    (a : α) (l : List α) (hl : l.Pairwise (fun x y => le x y = true)) :
    (insertStable le a l).Pairwise (fun x y => le x y = true) := by
  induction l with
  | nil => simp [insertStable]
  | cons b bs ih =>
    simp only [insertStable]
    rcases List.pairwise_cons.mp hl with ⟨hb, hbs⟩
    split
    · rename_i hab
      refine List.pairwise_cons.mpr ⟨?_, hl⟩
      intro y hy
      rcases List.mem_cons.mp hy with rfl | hy
      · exact hab
      · exact htr a b y hab (hb _ hy)
    · rename_i hab
      have hba : le b a = true := by
        rcases hto a b with h | h
        · exact absurd h hab
        · exact h
      refine List.pairwise_cons.mpr ⟨?_, ih hbs⟩
      intro y hy
      rcases List.mem_cons.mp ((insertStable_perm le a bs).mem_iff.mp hy) with rfl | h
      · exact hba
      · exact hb y h

theorem pySortBy_pairwise (le : α → α → Bool)
    (htr : ∀ a b c, le a b = true → le b c = true → le a c = true)
    (hto : ∀ a b, le a b = true ∨ le b a = true)
    (l : List α) : (pySortBy le l).Pairwise (fun x y => le x y = true) := by
  induction l with
  | nil => simp [pySortBy]
  | cons x xs ih => exact insertStable_pairwise le htr hto x _ ih

theorem pySortBy_head_min (le : α → α → Bool)
    (htr : ∀ a b c, le a b = true → le b c = true → le a c = true)
    (hto : ∀ a b, le a b = true ∨ le b a = true)
    (l : List α) (x : α) (rest : List α) (h : pySortBy le l = x :: rest) :
    ∀ y ∈ l, le x y = true := by
  intro y hy
  have hy' : y ∈ pySortBy le l := (pySortBy_perm le l).mem_iff.mpr hy
  rw [h] at hy'
  rcases List.mem_cons.mp hy' with rfl | hy'
  · rcases hto y y with h' | h' <;> exact h'
  · have hp := pySortBy_pairwise le htr hto l
    rw [h] at hp
    exact (List.pairwise_cons.mp hp).1 y hy'

theorem pySortBy_mem_head (le : α → α → Bool) (l : List α) (x : α) (rest : List α)
    (h : pySortBy le l = x :: rest) : x ∈ l := by
  have : x ∈ pySortBy le l := by rw [h]; exact List.mem_cons_self x rest
  exact (pySortBy_perm le l).mem_iff.mp this

theorem pySortBy_ne_nil (le : α → α → Bool) (l : List α) (h : l ≠ []) :
    pySortBy le l ≠ [] := by
  intro h0
  apply h
  have hlen := (pySortBy_perm le l).length_eq
  rw [h0] at hlen
  exact List.length_eq_zero.mp hlen.symm

theorem keyLe_trans (a b c : Nat × Nat) (hab : keyLe a b = true) (hbc : keyLe b c = true) :
    keyLe a c = true := by
  simp only [keyLe, Bool.or_eq_true, Bool.and_eq_true, decide_eq_true_eq] at hab hbc ⊢
  omega

theorem keyLe_total (a b : Nat × Nat) : keyLe a b = true ∨ keyLe b a = true := by
  simp only [keyLe, Bool.or_eq_true, Bool.and_eq_true, decide_eq_true_eq]
  omega

theorem lenLe_trans (a b c : String) (hab : lenLe a b = true) (hbc : lenLe b c = true) :
    lenLe a c = true := by
  simp only [lenLe, decide_eq_true_eq] at hab hbc ⊢
  omega

theorem lenLe_total (a b : String) : lenLe a b = true ∨ lenLe b a = true := by
  simp only [lenLe, decide_eq_true_eq]
  omega

theorem dedupFirstAux_sublist (l : List String) :
    ∀ seen : List String, List.Sublist (dedupFirstAux seen l) l := by
  induction l with
  | nil => intro seen; simp [dedupFirstAux]
  | cons x xs ih =>
    intro seen
    simp only [dedupFirstAux]
    split
    · exact (ih seen).trans (List.sublist_cons_self x xs)
    · exact (ih (x :: seen)).cons₂ x

theorem dedupFirstAux_mem (l : List String) :
    ∀ (seen : List String) (x : String),
      x ∈ dedupFirstAux seen l ↔ x ∈ l ∧ x ∉ seen := by
  induction l with
  | nil => intro seen x; simp [dedupFirstAux]
  | cons y ys ih =>
    intro seen x
    simp only [dedupFirstAux]
    split
    · rename_i hy
      have hymem : y ∈ seen := by simpa using hy
      rw [ih seen x]
      simp only [List.mem_cons]
      constructor
      · rintro ⟨hx, hns⟩
        exact ⟨Or.inr hx, hns⟩
      · rintro ⟨hor, hns⟩
        rcases hor with rfl | hx
        · exact absurd hymem hns
        · exact ⟨hx, hns⟩
    · rename_i hy
      have hynot : y ∉ seen := by simpa using hy
      simp only [List.mem_cons, ih (y :: seen) x]
      by_cases hxy : x = y
      · subst hxy
        simp [hynot]
      · simp [hxy]

theorem dedupFirstAux_nodup (l : List String) :
    ∀ seen : List String, (dedupFirstAux seen l).Nodup := by
  induction l with
  | nil => intro seen; simp [dedupFirstAux]
  | cons y ys ih =>
    intro seen
    simp only [dedupFirstAux]
    split
    · exact ih seen
    · refine List.nodup_cons.mpr ⟨?_, ih (y :: seen)⟩
      intro hmem
      have := (dedupFirstAux_mem ys (y :: seen) y).mp hmem
      exact this.2 (List.mem_cons_self y seen)

theorem rstripSlash_of_not_slash (s : String) (h : strEndsWith s "/" = false) :
    rstripSlash s = s := by
  unfold strEndsWith listEndsWith at h
  rw [(by decide : ("/" : String).toList.reverse = ['/'])] at h
  cases s with
  | mk d =>
    show String.mk ((String.mk d).toList.reverse.dropWhile (fun c => c == '/')).reverse
        = String.mk d
    cases hd : (String.mk d).toList.reverse with
    | nil =>
      have hdnil : d = [] := by
        have := congrArg List.reverse hd
        simpa using this
      subst hdnil
      rfl
    | cons c cs =>
      rw [hd] at h
      have hc : ¬ c = '/' := by
        intro e
        subst e
        simp [List.isPrefixOf] at h
      have hc' : (c == '/') = false := by
        exact beq_eq_false_iff_ne.mpr (fun e => hc e)
      rw [List.dropWhile_cons, hc']
      simp only [Bool.false_eq_true, if_false]
      have hd' : d.reverse = c :: cs := hd
      rw [← hd', List.reverse_reverse]

theorem score_wad_fst_zero (n : String) (h : (_score_wad_name n).1 = 0) :
    strLower n = "doom2.wad" := by
  by_cases h1 : strLower n = "doom2.wad"
  · exact h1
  · exfalso
    simp only [_score_wad_name, h1, if_false] at h
    split_ifs at h

/-- C2 (amended): ensure_mod_payload accepts no progress keyword parameter, so
every call binding the keyword set that setup_all passes (which includes
progress) raises TypeError during argument binding, independent of the body
(hence before any network or filesystem work); consequently the
mod-payload step of setup_all raises TypeError on every path except the one taking the
skip_mod_update shortcut with an existing local candidate. -/
theorem claim_C2 {α : Type} (args : ModStepArgs) (body : Unit → α) :
    ("progress" ∈ setup_all_call_kwargs ∧ "progress" ∉ ensure_mod_payload_params) ∧
    (∀ b : Unit → α, pyCallKw ensure_mod_payload_params setup_all_call_kwargs b =
      CallResult.typeError) ∧
    (args.skip_mod_update = false ∨ args.mods_dir_exists = false ∨
        args.local_candidates = [] →
      setup_all_mod_step args body = ModStepResult.typeError) := by
  have hcall : ∀ b : Unit → α,
      pyCallKw ensure_mod_payload_params setup_all_call_kwargs b = CallResult.typeError :=
    fun b => rfl
  refine ⟨⟨by decide, by decide⟩, hcall, ?_⟩
  intro h
  unfold setup_all_mod_step
  rcases h with h | h | h
  · simp [h, hcall]
  · simp [h, hcall]
  · rw [h]
    by_cases hc : (args.skip_mod_update && args.mods_dir_exists) = true
    · simp [hc, hcall]
    · simp only [Bool.not_eq_true] at hc
      simp [hc, hcall]

/-- C2 witness: at the concrete no-skip invocation the mod-payload step is the
TypeError outcome. -/
theorem claim_C2_witness :
    (ModStepArgs.mk false true ["old.pk3"]).skip_mod_update = false ∧
    setup_all_mod_step (ModStepArgs.mk false true ["old.pk3"]) (fun _ => (0 : Nat)) =
      ModStepResult.typeError :=
  ⟨rfl, (claim_C2 (ModStepArgs.mk false true ["old.pk3"]) (fun _ => (0 : Nat))).2.2
    (Or.inl rfl)⟩

/-- C2 counterexample: an invocation of setup_all that reaches the mod-payload
step with skip_mod_update set, an existing mods directory and a local
candidate uses the local payload and does not fail, refuting the claim that
the step always fails. -/
theorem claim_C2_counterexample :
    setup_all_mod_step (ModStepArgs.mk true true ["maximum_security.pk3"])
        (fun _ => (0 : Nat)) = ModStepResult.usedLocal "maximum_security.pk3" ∧
    setup_all_mod_step (ModStepArgs.mk true true ["maximum_security.pk3"])
        (fun _ => (0 : Nat)) ≠ ModStepResult.typeError :=
  ⟨rfl, by decide⟩

/-- C3: both streaming downloaders write response bytes only to the temporary
sibling file (the destination path with a .part suffix appended, which is a
different path from the destination), and the destination path is touched by
exactly one event: the final rename of the temporary file, performed after
all chunk writes — so the destination is never observable partially written. -/
theorem claim_C3 (out : String) (chunks : List (List Nat)) :
    tmpName out = out ++ ".part" ∧
    tmpName out ≠ out ∧
    (∀ p c, FsEvent.writeChunk p c ∈ download_with_optional_md5_events out chunks →
      p = tmpName out) ∧
    (download_with_optional_md5_events out chunks).getLast? =
      some (FsEvent.rename (tmpName out) out) ∧
    (∀ e ∈ (download_with_optional_md5_events out chunks).dropLast,
      touchesPath out e = false) := by
  have htmp := tmpName_eq out
  have hne : tmpName out ≠ out := by
    rw [htmp]
    intro h
    have hlen := congrArg String.length h
    rw [String.length_append] at hlen
    have h5 : (".part" : String).length = 5 := by decide
    rw [h5] at hlen
    omega
  refine ⟨htmp, hne, ?_, ?_, ?_⟩
  · intro p c hmem
    simp only [download_with_optional_md5_events, List.mem_cons, List.mem_append,
      List.mem_map, List.mem_singleton] at hmem
    rcases hmem with h | ⟨a, _, ha⟩ | h
    · exact absurd h (by simp)
    · cases ha
      rfl
    · exact absurd h (by simp)
  · show (FsEvent.mkdirParent :: (_ ++ [FsEvent.rename (tmpName out) out])).getLast? = _
    rw [← List.cons_append, List.getLast?_concat]
  · intro e he
    rw [show download_with_optional_md5_events out chunks
        = (FsEvent.mkdirParent ::
            (chunks.filter (fun c => !c.isEmpty)).map
              (fun c => FsEvent.writeChunk (tmpName out) c))
          ++ [FsEvent.rename (tmpName out) out] by
      simp [download_with_optional_md5_events]] at he
    rw [List.dropLast_concat] at he
    rcases List.mem_cons.mp he with rfl | he
    · rfl
    · rcases List.mem_map.mp he with ⟨a, _, ha⟩
      subst ha
      simp only [touchesPath]
      exact beq_eq_false_iff_ne.mpr hne

/-- C3 witness: the trace of a concrete two-chunk download of mod.pk3 writes
only to mod.pk3.part and ends with the rename onto mod.pk3. -/
theorem claim_C3_witness :
    FsEvent.writeChunk "mod.pk3.part" [7] ∈
      download_with_optional_md5_events "mod.pk3" [[7], [9]] ∧
    (download_with_optional_md5_events "mod.pk3" [[7], [9]]).getLast? =
      some (FsEvent.rename "mod.pk3.part" "mod.pk3") :=
  ⟨by decide,
    by
      have h := (claim_C3 "mod.pk3" [[7], [9]]).2.2.2.1
      rw [(by decide : tmpName "mod.pk3" = "mod.pk3.part")] at h
      exact h⟩

/-- C9 (amended): with zero matching anchors find_downloads_page returns the
deterministic fallback rstrip(base, slash) plus /downloads, which equals the
base URL with /downloads appended whenever the base URL does not end in a
slash. -/
theorem claim_C9 (urljoin : String → String → String) (mod_root_url : String)
    (anchors : List Anchor)
    (h : anchors.filterMap (downloadsCandidate urljoin mod_root_url) = []) :
    find_downloads_page urljoin mod_root_url anchors =
      rstripSlash mod_root_url ++ "/downloads" ∧
    (strEndsWith mod_root_url "/" = false →
      find_downloads_page urljoin mod_root_url anchors = mod_root_url ++ "/downloads") := by
  have h1 : find_downloads_page urljoin mod_root_url anchors =
      rstripSlash mod_root_url ++ "/downloads" := by
    unfold find_downloads_page
    rw [h]
    rfl
  exact ⟨h1, fun hs => by rw [h1, rstripSlash_of_not_slash _ hs]⟩

/-- C9 witness: for the slash-free default mod root URL and an anchor-free
page the fallback is the literal concatenation with /downloads. -/
theorem claim_C9_witness :
    ([] : List Anchor).filterMap
      (downloadsCandidate (fun _ href => href) "https://www.moddb.com/mods/maximum-security")
      = [] ∧
    find_downloads_page (fun _ href => href) "https://www.moddb.com/mods/maximum-security" [] =
      "https://www.moddb.com/mods/maximum-security" ++ "/downloads" :=
  ⟨rfl, (claim_C9 (fun _ href => href) "https://www.moddb.com/mods/maximum-security" [] rfl).2
    (by decide)⟩

/-- C9 counterexample: for a mod root URL ending in a slash the function
returns the rstripped fallback, which differs from the claimed literal
appending of /downloads to the mod root URL. -/
theorem claim_C9_counterexample :
    find_downloads_page (fun _ href => href) "https://www.moddb.com/mods/maximum-security/" [] =
      "https://www.moddb.com/mods/maximum-security/downloads" ∧
    ¬ find_downloads_page (fun _ href => href)
        "https://www.moddb.com/mods/maximum-security/" [] =
      "https://www.moddb.com/mods/maximum-security/" ++ "/downloads" :=
  ⟨by decide, by decide⟩

/-- C1: whenever a checksum was published (md5 is some digest), the conditional
download step never finishes without an exception while the on-disk payload
digest differs from the published one: a pre-existing local file with a
mismatching digest forces a re-download, and a downloaded file with a
mismatching digest makes the operation raise the MD5-mismatch error instead
of returning. -/
theorem claim_C1 (hash : List Nat → String) (remote : List Nat) (d : String)
    (force : Bool) (st : FetchState) :
    ((ensure_mod_payload_fetch hash remote (some d) force st).error = none →
      ∃ c, (ensure_mod_payload_fetch hash remote (some d) force st).finalState.localFile
          = some c ∧ strLower (hash c) = strLower d) ∧
    (∀ c, st.localFile = some c → force = false → ¬ strLower (hash c) = strLower d →
      (ensure_mod_payload_fetch hash remote (some d) force st).downloads = 1) ∧
    (¬ strLower (hash remote) = strLower d →
      (ensure_mod_payload_fetch hash remote (some d) force st).downloads = 1 →
      (ensure_mod_payload_fetch hash remote (some d) force st).error
        = some md5MismatchRaised) := by
  obtain ⟨lf⟩ := st
  cases lf with
  | none =>
    cases force <;> by_cases hv : strLower (hash remote) = strLower d <;>
      simp_all [ensure_mod_payload_fetch, verify_md5]
  | some c0 =>
    cases force <;> by_cases hv : strLower (hash remote) = strLower d <;>
      by_cases hc : strLower (hash c0) = strLower d <;>
      simp_all [ensure_mod_payload_fetch, verify_md5]

/-- C1 witness: a pre-existing mismatching file is replaced by a verified
download whose digest matches the published value. -/
theorem claim_C1_witness :
    (ensure_mod_payload_fetch (fun c => if c = [1] then "aa" else "bb") [1] (some "AA")
        false ⟨some [2]⟩).error = none ∧
    (∃ c, (ensure_mod_payload_fetch (fun c => if c = [1] then "aa" else "bb") [1] (some "AA")
        false ⟨some [2]⟩).finalState.localFile = some c ∧
      strLower ((fun c => if c = [1] then "aa" else "bb") c) = strLower "AA") :=
  ⟨by decide,
    (claim_C1 (fun c => if c = [1] then "aa" else "bb") [1] "AA" false ⟨some [2]⟩).1
      (by decide)⟩

/-- Helper for the idempotence part of C5: after an error-free run with force
false, an immediate second run with force false against the unchanged remote
performs no download. -/
theorem fetch_second_run_skips (hash : List Nat → String) (remote : List Nat)
    (md5 : Option String) (st : FetchState)
    (he : (ensure_mod_payload_fetch hash remote md5 false st).error = none) :
    (ensure_mod_payload_fetch hash remote md5 false
      (ensure_mod_payload_fetch hash remote md5 false st).finalState).downloads = 0 := by
  obtain ⟨lf⟩ := st
  cases md5 with
  | none =>
    cases lf <;> simp [ensure_mod_payload_fetch, verify_md5]
  | some d =>
    by_cases hv : strLower (hash remote) = strLower d
    · cases lf with
      | none => simp [ensure_mod_payload_fetch, verify_md5, hv]
      | some c0 =>
        by_cases hc : strLower (hash c0) = strLower d <;>
          simp [ensure_mod_payload_fetch, verify_md5, hv, hc]
    · cases lf with
      | none =>
        exfalso
        simp [ensure_mod_payload_fetch, verify_md5, hv] at he
      | some c0 =>
        by_cases hc : strLower (hash c0) = strLower d
        · simp [ensure_mod_payload_fetch, verify_md5, hv, hc]
        · exfalso
          simp [ensure_mod_payload_fetch, verify_md5, hv, hc] at he

/-- Helper for C5: a run starting with no local file always downloads once. -/
theorem fetch_fresh_downloads_once (hash : List Nat → String) (remote : List Nat)
    (md5 : Option String) :
    (ensure_mod_payload_fetch hash remote md5 false ⟨none⟩).downloads = 1 := by
  cases md5 with
  | none => simp [ensure_mod_payload_fetch, verify_md5]
  | some d =>
    by_cases hv : strLower (hash remote) = strLower d <;>
      simp [ensure_mod_payload_fetch, verify_md5, hv]

/-- C5: the conditional download skips the network fetch (zero downloads) if
and only if no forced re-download was requested, a local file exists, and
either no checksum was published or the digest of the existing file matches; a
first run from an absent local file performs exactly one download and, when it
succeeds, a second run with force false against the unchanged remote performs
zero further downloads, for one download in total. -/
theorem claim_C5 (hash : List Nat → String) (remote : List Nat) (md5 : Option String)
    (force : Bool) (st : FetchState) :
    ((ensure_mod_payload_fetch hash remote md5 force st).downloads = 0 ↔
      (force = false ∧ st.localFile ≠ none ∧
        (md5 = none ∨ ∃ d c, md5 = some d ∧ st.localFile = some c ∧
          strLower (hash c) = strLower d))) ∧
    (st.localFile = none → (ensure_mod_payload_fetch hash remote md5 false st).downloads = 1) ∧
    (∀ st₀, (ensure_mod_payload_fetch hash remote md5 false st₀).error = none →
      (ensure_mod_payload_fetch hash remote md5 false
        (ensure_mod_payload_fetch hash remote md5 false st₀).finalState).downloads = 0) ∧
    (st.localFile = none →
      (ensure_mod_payload_fetch hash remote md5 false st).error = none →
      (ensure_mod_payload_fetch hash remote md5 false st).downloads +
        (ensure_mod_payload_fetch hash remote md5 false
          (ensure_mod_payload_fetch hash remote md5 false st).finalState).downloads = 1) := by
  refine ⟨?_, ?_, fun st₀ => fetch_second_run_skips hash remote md5 st₀, ?_⟩
  · obtain ⟨lf⟩ := st
    cases md5 with
    | none => cases lf <;> cases force <;> simp [ensure_mod_payload_fetch, verify_md5]
    | some d =>
      cases lf with
      | none =>
        cases force <;> by_cases hv : strLower (hash remote) = strLower d <;>
          simp [ensure_mod_payload_fetch, verify_md5, hv]
      | some c0 =>
        cases force <;> by_cases hv : strLower (hash remote) = strLower d <;>
          by_cases hc : strLower (hash c0) = strLower d <;>
          simp [ensure_mod_payload_fetch, verify_md5, hv, hc]
  · intro h
    obtain ⟨lf⟩ := st
    cases lf with
    | none => exact fetch_fresh_downloads_once hash remote md5
    | some c0 => simp at h
  · intro h he
    obtain ⟨lf⟩ := st
    cases lf with
    | none =>
      rw [fetch_fresh_downloads_once hash remote md5,
        fetch_second_run_skips hash remote md5 ⟨none⟩ he]
    | some c0 => simp at h

/-- C5 witness: with no checksum published and no local file, the first run
downloads once and the second run downloads nothing, one download in total. -/
theorem claim_C5_witness :
    (FetchState.mk none).localFile = none ∧
    (ensure_mod_payload_fetch (fun _ => "aa") [3] none false ⟨none⟩).error = none ∧
    (ensure_mod_payload_fetch (fun _ => "aa") [3] none false ⟨none⟩).downloads +
      (ensure_mod_payload_fetch (fun _ => "aa") [3] none false
        (ensure_mod_payload_fetch (fun _ => "aa") [3] none false ⟨none⟩).finalState).downloads
      = 1 :=
  ⟨rfl, by decide,
    (claim_C5 (fun _ => "aa") [3] none false ⟨none⟩).2.2.2 rfl (by decide)⟩

/-- C8: on an empty collection the WAD selector returns none (it never
raises); on any collection containing doom2.wad in any letter case it returns
a file named doom2.wad up to case, regardless of input order; and in general
it returns a minimum of the (tier, length) ranking. -/
theorem claim_C8 :
    _pick_best_local_wad [] = none ∧
    (∀ (l : List String) (w : String), w ∈ l → strLower w = "doom2.wad" →
      ∃ r, _pick_best_local_wad l = some r ∧ strLower r = "doom2.wad") ∧
    (∀ (l : List String) (x : String) (rest : List String),
      pySortBy (fun a b => keyLe (_score_wad_name a) (_score_wad_name b)) l = x :: rest →
      x ∈ l ∧ ∀ y ∈ l, keyLe (_score_wad_name x) (_score_wad_name y) = true) := by
  have htr : ∀ a b c : String,
      keyLe (_score_wad_name a) (_score_wad_name b) = true →
      keyLe (_score_wad_name b) (_score_wad_name c) = true →
      keyLe (_score_wad_name a) (_score_wad_name c) = true :=
    fun a b c hab hbc => keyLe_trans _ _ _ hab hbc
  have hto : ∀ a b : String,
      keyLe (_score_wad_name a) (_score_wad_name b) = true ∨
      keyLe (_score_wad_name b) (_score_wad_name a) = true :=
    fun a b => keyLe_total _ _
  refine ⟨rfl, ?_, ?_⟩
  · intro l w hw hlow
    have hne : l ≠ [] := by
      intro h
      subst h
      simp at hw
    cases hsort : pySortBy (fun a b => keyLe (_score_wad_name a) (_score_wad_name b)) l with
    | nil => exact absurd hsort (pySortBy_ne_nil _ _ hne)
    | cons x rest =>
      refine ⟨x, by unfold _pick_best_local_wad; rw [hsort], ?_⟩
      have hmin := pySortBy_head_min _ htr hto l x rest hsort w hw
      have hsw : _score_wad_name w = (0, 9) := by
        simp only [_score_wad_name]
        rw [hlow]
        decide
      rw [hsw] at hmin
      simp only [keyLe, Bool.or_eq_true, Bool.and_eq_true, decide_eq_true_eq] at hmin
      have hx0 : (_score_wad_name x).1 = 0 := by omega
      exact score_wad_fst_zero x hx0
  · intro l x rest hsort
    exact ⟨pySortBy_mem_head _ l x rest hsort, pySortBy_head_min _ htr hto l x rest hsort⟩

/-- C8 witness: a shuffled collection containing an upper-case doom2.wad
selects it. -/
theorem claim_C8_witness :
    ("DOOM2.WAD" ∈ ["freedoom2.wad", "DOOM2.WAD", "extra.wad"] ∧
      strLower "DOOM2.WAD" = "doom2.wad") ∧
    (∃ r, _pick_best_local_wad ["freedoom2.wad", "DOOM2.WAD", "extra.wad"] = some r ∧
      strLower r = "doom2.wad") :=
  ⟨⟨by decide, by decide⟩,
    claim_C8.2.1 ["freedoom2.wad", "DOOM2.WAD", "extra.wad"] "DOOM2.WAD"
      (by decide) (by decide)⟩

/-- C6 (amended): the file-listing extraction returns matching absolute URLs
in document order with duplicates removed preserving first-seen order, and
newest_filepage selects the first (topmost) match as newest; the
downloads-page step however does not select the first match in document
order: find_downloads_page returns a matching URL of minimal length. -/
theorem claim_C6 :
    (∀ l : List String, List.Sublist (dedupFirst l) l ∧ (dedupFirst l).Nodup ∧
      (∀ x, x ∈ dedupFirst l ↔ x ∈ l)) ∧
    (∀ (urljoin : String → String → String) (downloads_url : String)
      (anchors : List Anchor) (x : String) (xs : List String),
      anchors.filterMap (newestCandidate urljoin downloads_url) = x :: xs →
      newest_filepage urljoin downloads_url anchors = Except.ok x) ∧
    (∀ (urljoin : String → String → String) (mod_root_url : String)
      (anchors : List Anchor) (c : String) (rest : List String),
      pySortBy lenLe (anchors.filterMap (downloadsCandidate urljoin mod_root_url))
        = c :: rest →
      find_downloads_page urljoin mod_root_url anchors = c ∧
      c ∈ anchors.filterMap (downloadsCandidate urljoin mod_root_url) ∧
      ∀ u ∈ anchors.filterMap (downloadsCandidate urljoin mod_root_url),
        c.length ≤ u.length) := by
  refine ⟨?_, ?_, ?_⟩
  · intro l
    refine ⟨dedupFirstAux_sublist l [], dedupFirstAux_nodup l [], ?_⟩
    intro x
    rw [dedupFirst, dedupFirstAux_mem l [] x]
    simp
  · intro urljoin downloads_url anchors x xs h
    simp only [newest_filepage, h]
    rfl
  · intro urljoin mod_root_url anchors c rest h
    refine ⟨by simp only [find_downloads_page, h], pySortBy_mem_head _ _ _ _ h, ?_⟩
    intro u hu
    have := pySortBy_head_min lenLe lenLe_trans lenLe_total _ c rest h u hu
    simpa [lenLe] using this

/-- C6 witness: on a listing with two distinct file links the topmost one is
returned as newest. -/
theorem claim_C6_witness :
    ([Anchor.mk "/mods/m/downloads/file-b" "", Anchor.mk "/mods/m/downloads/file-a" ""]
        |>.filterMap (newestCandidate (fun _ href => href) "https://site/mods/m/downloads"))
      = ["/mods/m/downloads/file-b", "/mods/m/downloads/file-a"] ∧
    newest_filepage (fun _ href => href) "https://site/mods/m/downloads"
        [Anchor.mk "/mods/m/downloads/file-b" "", Anchor.mk "/mods/m/downloads/file-a" ""]
      = Except.ok "/mods/m/downloads/file-b" :=
  ⟨by decide,
    claim_C6.2.1 (fun _ href => href) "https://site/mods/m/downloads"
      [Anchor.mk "/mods/m/downloads/file-b" "", Anchor.mk "/mods/m/downloads/file-a" ""]
      "/mods/m/downloads/file-b" ["/mods/m/downloads/file-a"] (by decide)⟩

/-- C6 counterexample: the downloads-page step does not select the first
matching anchor in document order; with a longer matching URL first and a
shorter one second, find_downloads_page returns the second (shortest) URL. -/
theorem claim_C6_counterexample :
    downloadsCandidate (fun _ href => href) "https://site/mods/m"
        (Anchor.mk "https://site/mods/m/downloads/list-of-files" "")
      = some "https://site/mods/m/downloads/list-of-files" ∧
    find_downloads_page (fun _ href => href) "https://site/mods/m"
        [Anchor.mk "https://site/mods/m/downloads/list-of-files" "",
         Anchor.mk "https://site/mods/m/downloads" ""]
      = "https://site/mods/m/downloads" ∧
    ¬ "https://site/mods/m/downloads" = "https://site/mods/m/downloads/list-of-files" :=
  ⟨by decide, by decide, by decide⟩

/-- C7: a path that is not a zip archive is returned unchanged; a zip whose
non-directory entries include no preferred-extension candidate is fully
extracted and the archive path returned; otherwise exactly the best candidate
under the (extension tier, name length) ranking is extracted and its
extracted path returned. -/
theorem claim_C7 (archive_path : String) (entries : List String) :
    (¬ strLower (pathSuffix archive_path) = ".zip" →
      maybe_extract_and_pick_payload archive_path entries =
        ⟨ExtractAction.keepAsIs, archive_path⟩) ∧
    (strLower (pathSuffix archive_path) = ".zip" → zip_payload_candidates entries = [] →
      maybe_extract_and_pick_payload archive_path entries =
        ⟨ExtractAction.extractAll, archive_path⟩) ∧
    (strLower (pathSuffix archive_path) = ".zip" →
      ∀ pick rest,
        pySortBy (fun a b => keyLe (member_sort_key a) (member_sort_key b))
          (zip_payload_candidates entries) = pick :: rest →
        maybe_extract_and_pick_payload archive_path entries =
          ⟨ExtractAction.extractOne pick, joinPath (pathParent archive_path) pick⟩ ∧
        pick ∈ zip_payload_candidates entries ∧
        ∀ m ∈ zip_payload_candidates entries,
          keyLe (member_sort_key pick) (member_sort_key m) = true) := by
  refine ⟨?_, ?_, ?_⟩
  · intro h
    simp [maybe_extract_and_pick_payload, h]
  · intro h hc
    simp [maybe_extract_and_pick_payload, h, hc, pySortBy]
  · intro h pick rest hsort
    have htr : ∀ a b c : String,
        keyLe (member_sort_key a) (member_sort_key b) = true →
        keyLe (member_sort_key b) (member_sort_key c) = true →
        keyLe (member_sort_key a) (member_sort_key c) = true :=
      fun a b c hab hbc => keyLe_trans _ _ _ hab hbc
    have hto : ∀ a b : String,
        keyLe (member_sort_key a) (member_sort_key b) = true ∨
        keyLe (member_sort_key b) (member_sort_key a) = true :=
      fun a b => keyLe_total _ _
    refine ⟨by simp [maybe_extract_and_pick_payload, h, hsort],
      pySortBy_mem_head _ _ _ _ hsort, ?_⟩
    intro m hm
    exact pySortBy_head_min _ htr hto _ pick rest hsort m hm

/-- C7 witness: a bare pk3 payload is kept as is; a zip holding only foo.txt
is fully extracted with the archive path returned; a zip holding bar.wad and
baz.pk3 extracts baz.pk3 and returns its path (pk3 ranks above wad). -/
theorem claim_C7_witness :
    maybe_extract_and_pick_payload "payload.pk3" [] =
      ⟨ExtractAction.keepAsIs, "payload.pk3"⟩ ∧
    maybe_extract_and_pick_payload "mods/mod.zip" ["foo.txt"] =
      ⟨ExtractAction.extractAll, "mods/mod.zip"⟩ ∧
    maybe_extract_and_pick_payload "mods/mod.zip" ["bar.wad", "baz.pk3"] =
      ⟨ExtractAction.extractOne "baz.pk3", "mods/baz.pk3"⟩ :=
  ⟨(claim_C7 "payload.pk3" []).1 (by decide),
    (claim_C7 "mods/mod.zip" ["foo.txt"]).2.1 (by decide) (by decide),
    by
      have h := ((claim_C7 "mods/mod.zip" ["bar.wad", "baz.pk3"]).2.2 (by decide)
        "baz.pk3" ["bar.wad"] (by decide)).1
      rw [(by decide : joinPath (pathParent "mods/mod.zip") "baz.pk3" = "mods/baz.pk3")] at h
      exact h⟩

/-- Helper for C10: on any page text that begins with the concrete MD5 label
and digest, the leftmost-match MD5 scanner captures that digest, whatever
follows. -/
theorem scanMd5_concrete_page (tail : List Char) :
    scanMd5 (('M' :: 'D' :: '5' :: ' ' :: 'H' :: 'a' :: 's' :: 'h' :: ' ' ::
      '5' :: 'd' :: '4' :: '1' :: '4' :: '0' :: '2' :: 'a' :: 'b' ::
      'c' :: '4' :: 'b' :: '2' :: 'a' :: '7' :: '6' :: 'b' :: '9' ::
      '7' :: '1' :: '9' :: 'd' :: '9' :: '1' :: '1' :: '0' :: '1' ::
      '7' :: 'c' :: '5' :: '9' :: '2' :: ' ' :: 'F' :: 'i' :: 'l' ::
      'e' :: 'n' :: 'a' :: 'm' :: 'e' :: ' ' :: 'e' :: 'x' :: 'a' ::
      'm' :: 'p' :: 'l' :: 'e' :: '.' :: 'p' :: 'k' :: '3' :: []) ++ tail)
      = some "5d41402abc4b2a76b9719d911017c592".toList := by
  simp only [List.cons_append, List.nil_append]
  simp +decide [scanMd5, tryMd5At, List.isPrefixOf, isPySpace, List.dropWhile, List.take,
    isHexChar]

/-- Helper for C10: on any page text that begins with the concrete MD5 phrase
followed by the Filename phrase, and whose remainder is empty or starts with
whitespace, the leftmost-match Filename scanner captures example.pk3. -/
theorem scanFilename_concrete_page (tail : List Char)
    (h : tail = [] ∨ ∃ c cs, tail = c :: cs ∧ isPySpace c = true) :
    scanFilename (('M' :: 'D' :: '5' :: ' ' :: 'H' :: 'a' :: 's' :: 'h' :: ' ' ::
      '5' :: 'd' :: '4' :: '1' :: '4' :: '0' :: '2' :: 'a' :: 'b' ::
      'c' :: '4' :: 'b' :: '2' :: 'a' :: '7' :: '6' :: 'b' :: '9' ::
      '7' :: '1' :: '9' :: 'd' :: '9' :: '1' :: '1' :: '0' :: '1' ::
      '7' :: 'c' :: '5' :: '9' :: '2' :: ' ' :: 'F' :: 'i' :: 'l' ::
      'e' :: 'n' :: 'a' :: 'm' :: 'e' :: ' ' :: 'e' :: 'x' :: 'a' ::
      'm' :: 'p' :: 'l' :: 'e' :: '.' :: 'p' :: 'k' :: '3' :: []) ++ tail)
      = some "example.pk3".toList := by
  rcases h with rfl | ⟨c, cs, rfl, hc⟩
  · decide
  · have hns : (!isPySpace c) = false := by rw [hc]; rfl
    simp only [isPySpace, Bool.not_or] at hns
    simp only [List.cons_append, List.nil_append]
    simp [scanFilename, tryFilenameAt, List.isPrefixOf, isPySpace, List.takeWhile,
      List.dropWhile, hns]

/-- C4 (amended): the three pipeline failure cases are raised exactly in their
respective situations, but they are not three distinguishable exception
types: all three are Python RuntimeError values, distinguishable only by
their pairwise-distinct messages. -/
theorem claim_C4 (urljoin : String → String → String)
    (downloads_url filepage_url text : String) (anchors fpAnchors : List Anchor)
    (hash : List Nat → String) (d : String) (data : List Nat) :
    (newest_filepage urljoin downloads_url anchors = Except.error noFilesFoundRaised ↔
      anchors.filterMap (newestCandidate urljoin downloads_url) = []) ∧
    (∀ e, newest_filepage urljoin downloads_url anchors = Except.error e →
      e = noFilesFoundRaised) ∧
    (parse_filepage_for_md5_and_start urljoin filepage_url text fpAnchors =
        Except.error noStartLinkRaised ↔
      findStart urljoin filepage_url fpAnchors = none) ∧
    (∀ e, parse_filepage_for_md5_and_start urljoin filepage_url text fpAnchors =
        Except.error e → e = noStartLinkRaised) ∧
    (verify_md5 hash (some d) data = some md5MismatchRaised ↔
      ¬ strLower (hash data) = strLower d) ∧
    (noFilesFoundRaised.cls = "RuntimeError" ∧ noStartLinkRaised.cls = "RuntimeError" ∧
      md5MismatchRaised.cls = "RuntimeError") ∧
    (noFilesFoundRaised.msg ≠ noStartLinkRaised.msg ∧
      noFilesFoundRaised.msg ≠ md5MismatchRaised.msg ∧
      noStartLinkRaised.msg ≠ md5MismatchRaised.msg) := by
  refine ⟨?_, ?_, ?_, ?_, ?_, ⟨rfl, rfl, rfl⟩, ⟨by decide, by decide, by decide⟩⟩
  · cases h : anchors.filterMap (newestCandidate urljoin downloads_url) with
    | nil => simp [newest_filepage, h]
    | cons x xs => simp [newest_filepage, h]
  · intro e he
    cases h : anchors.filterMap (newestCandidate urljoin downloads_url) with
    | nil =>
      simp only [newest_filepage, h] at he
      injection he with he2
      exact he2.symm
    | cons x xs => simp [newest_filepage, h] at he
  · cases h : findStart urljoin filepage_url fpAnchors with
    | none => simp [parse_filepage_for_md5_and_start, h]
    | some s => simp [parse_filepage_for_md5_and_start, h]
  · intro e he
    cases h : findStart urljoin filepage_url fpAnchors with
    | none =>
      simp only [parse_filepage_for_md5_and_start, h] at he
      injection he with he2
      exact he2.symm
    | some s => simp [parse_filepage_for_md5_and_start, h] at he
  · by_cases hv : strLower (hash data) = strLower d <;> simp [verify_md5, hv]

/-- C4 witness: a concrete digest mismatch raises the MD5-mismatch error. -/
theorem claim_C4_witness :
    ¬ strLower ((fun _ : List Nat => "aa") [0]) = strLower "bb" ∧
    verify_md5 (fun _ => "aa") (some "bb") [0] = some md5MismatchRaised :=
  ⟨by decide,
    (claim_C4 (fun _ href => href) "d" "f" "" [] [] (fun _ => "aa") "bb"
      [0]).2.2.2.2.1.mpr (by decide)⟩

/-- C4 counterexample: the three failure cases all raise the same Python
exception class (RuntimeError), so the errors are not three distinguishable
types as claimed. -/
theorem claim_C4_counterexample :
    newest_filepage (fun _ href => href) "https://site/mods/m/downloads" [] =
      Except.error noFilesFoundRaised ∧
    parse_filepage_for_md5_and_start (fun _ href => href)
        "https://site/mods/m/downloads/7" "" [] = Except.error noStartLinkRaised ∧
    verify_md5 (fun _ => "aa") (some "bb") [0] = some md5MismatchRaised ∧
    noFilesFoundRaised.cls = noStartLinkRaised.cls ∧
    noStartLinkRaised.cls = md5MismatchRaised.cls :=
  ⟨rfl, rfl, by decide, rfl, rfl⟩

/-- C10 (amended): for every file-detail page whose visible text starts with
the phrase MD5 Hash 5d41402abc4b2a76b9719d911017c592 followed by the phrase
Filename example.pk3 and continues, if at all, with a whitespace character,
and which carries a start link, the parser yields exactly that checksum and
that suggested name; the regex engine takes the leftmost match of each
pattern, so for texts that merely contain the phrases somewhere an earlier
match wins instead. -/
theorem claim_C10 (tail : String) (urljoin : String → String → String)
    (filepage_url : String) (anchors : List Anchor) (s : String)
    (htail : tail.toList = [] ∨ ∃ c cs, tail.toList = c :: cs ∧ isPySpace c = true)
    (hstart : findStart urljoin filepage_url anchors = some s) :
    parse_filepage_for_md5_and_start urljoin filepage_url
        ("MD5 Hash 5d41402abc4b2a76b9719d911017c592 Filename example.pk3" ++ tail) anchors
      = Except.ok ⟨s, some "5d41402abc4b2a76b9719d911017c592", some "example.pk3"⟩ := by
  have happ : ∀ a b : String, (a ++ b).toList = a.toList ++ b.toList :=
    fun a b => String.data_append a b
  have htext :
      ("MD5 Hash 5d41402abc4b2a76b9719d911017c592 Filename example.pk3" ++ tail).toList
      = ('M' :: 'D' :: '5' :: ' ' :: 'H' :: 'a' :: 's' :: 'h' :: ' ' ::
          '5' :: 'd' :: '4' :: '1' :: '4' :: '0' :: '2' :: 'a' :: 'b' ::
          'c' :: '4' :: 'b' :: '2' :: 'a' :: '7' :: '6' :: 'b' :: '9' ::
          '7' :: '1' :: '9' :: 'd' :: '9' :: '1' :: '1' :: '0' :: '1' ::
          '7' :: 'c' :: '5' :: '9' :: '2' :: ' ' :: 'F' :: 'i' :: 'l' ::
          'e' :: 'n' :: 'a' :: 'm' :: 'e' :: ' ' :: 'e' :: 'x' :: 'a' ::
          'm' :: 'p' :: 'l' :: 'e' :: '.' :: 'p' :: 'k' :: '3' :: []) ++ tail.toList := by
    rw [happ]
    rw [(by decide :
      ("MD5 Hash 5d41402abc4b2a76b9719d911017c592 Filename example.pk3" : String).toList
      = ('M' :: 'D' :: '5' :: ' ' :: 'H' :: 'a' :: 's' :: 'h' :: ' ' ::
          '5' :: 'd' :: '4' :: '1' :: '4' :: '0' :: '2' :: 'a' :: 'b' ::
          'c' :: '4' :: 'b' :: '2' :: 'a' :: '7' :: '6' :: 'b' :: '9' ::
          '7' :: '1' :: '9' :: 'd' :: '9' :: '1' :: '1' :: '0' :: '1' ::
          '7' :: 'c' :: '5' :: '9' :: '2' :: ' ' :: 'F' :: 'i' :: 'l' ::
          'e' :: 'n' :: 'a' :: 'm' :: 'e' :: ' ' :: 'e' :: 'x' :: 'a' ::
          'm' :: 'p' :: 'l' :: 'e' :: '.' :: 'p' :: 'k' :: '3' :: []))]
  unfold parse_filepage_for_md5_and_start
  rw [hstart, htext, scanMd5_concrete_page, scanFilename_concrete_page tail.toList htail]
  rw [(by decide : (some "5d41402abc4b2a76b9719d911017c592".toList).map
      (fun d => strLower (String.mk d)) = some "5d41402abc4b2a76b9719d911017c592")]
  rw [(by decide : (some "example.pk3".toList).map String.mk = some "example.pk3")]

/-- C10 witness: the exact concrete page text with a start link yields the
claimed checksum and suggested name. -/
theorem claim_C10_witness :
    (("" : String).toList = [] ∨
      ∃ c cs, ("" : String).toList = c :: cs ∧ isPySpace c = true) ∧
    findStart (fun _ href => href) "https://site/mods/m/downloads/7"
        [Anchor.mk "/mods/m/downloads/start/7" ""] = some "/mods/m/downloads/start/7" ∧
    parse_filepage_for_md5_and_start (fun _ href => href) "https://site/mods/m/downloads/7"
        ("MD5 Hash 5d41402abc4b2a76b9719d911017c592 Filename example.pk3" ++ "")
        [Anchor.mk "/mods/m/downloads/start/7" ""]
      = Except.ok ⟨"/mods/m/downloads/start/7", some "5d41402abc4b2a76b9719d911017c592",
          some "example.pk3"⟩ :=
  ⟨Or.inl rfl, by decide,
    claim_C10 "" (fun _ href => href) "https://site/mods/m/downloads/7"
      [Anchor.mk "/mods/m/downloads/start/7" ""] "/mods/m/downloads/start/7"
      (Or.inl rfl) (by decide)⟩

/-- C10 counterexample: a page text that contains both quoted phrases but
also earlier matches of the same patterns yields the earlier digest and the
earlier filename, not the quoted ones, refuting the claim for texts that
merely contain the phrases. -/
theorem claim_C10_counterexample :
    strContains
        "Filename decoy.txt MD5 Hash 00000000000000000000000000000000 MD5 Hash 5d41402abc4b2a76b9719d911017c592 Filename example.pk3"
        "MD5 Hash 5d41402abc4b2a76b9719d911017c592" = true ∧
    strContains
        "Filename decoy.txt MD5 Hash 00000000000000000000000000000000 MD5 Hash 5d41402abc4b2a76b9719d911017c592 Filename example.pk3"
        "Filename example.pk3" = true ∧
    parse_filepage_for_md5_and_start (fun _ href => href)
        "https://site/mods/m/downloads/7"
        "Filename decoy.txt MD5 Hash 00000000000000000000000000000000 MD5 Hash 5d41402abc4b2a76b9719d911017c592 Filename example.pk3"
        [Anchor.mk "/mods/m/downloads/start/7" ""]
      = Except.ok ⟨"/mods/m/downloads/start/7", some "00000000000000000000000000000000",
          some "decoy.txt"⟩ ∧
    ¬ (some "decoy.txt" : Option String) = some "example.pk3" :=
  ⟨by decide, by decide, by decide, by decide⟩
